import Mathlib

/-!
# Personal Finance Tracker: ledger and report core of `New_PFT.cpp`

A shallow embedding of the date utilities, `Transaction`, `Account` and
`ReportGenerator` of `src/New_PFT.cpp`, followed by the properties proved
about them.

Modelling conventions.
* A `std::string` is a Lean `String`; one `char` of the C++ string is one
  `Char`. `s.size()` is `String.length`, `s[i]` is `charAt s i`.
* A `double` amount is read as an exact number, a rational (`ℚ`).
* A `shared_ptr<Transaction>` argument is an `Option Transaction` (`none` is
  the null pointer). The two subclasses `Income` and `Expense` are the two
  values of `Kind`; the fields of a transaction are never written after
  construction, so a transaction is a value.
* A method that mutates `*this` returns the new `Account`.
* Text written to `cout` by `addTransaction` is returned as a list of strings.
* A sequence of calls on the account is a list of `Op`; the two reports take the
  account by const reference and hand it back as it was.
-/

namespace PFT

/-! ## Date utilities -/

/-- The C library `isdigit` in the "C" locale: true exactly on `'0'`..`'9'`
(character codes 48 to 57). -/
def isdigit (c : Char) : Bool := decide (48 ≤ c.toNat ∧ c.toNat ≤ 57)

/-- The access `s[i]` of `std::string`; `s[s.size()]` is the null character. Only
used at `i < s.size()`. -/
def charAt (s : String) (i : Nat) : Char := s.data.getD i (Char.ofNat 0)

/-- The call `s.substr(pos, n)` of `std::string` for `pos ≤ s.size()`: the at
most `n` characters from position `pos` on. (For `pos > s.size()` the C++ call
throws; `month_key` only calls it with `pos = 3` on a string of size 10.) -/
def substr (s : String) (pos n : Nat) : String := ⟨(s.data.drop pos).take n⟩

/-- Source: `bool valid_date_format(const string &date)`, lines 13-22. -/
def valid_date_format (date : String) : Bool :=
  if date.length ≠ 10 then false
  else if !isdigit (charAt date 0) || !isdigit (charAt date 1) then false
  else if charAt date 2 ≠ '-' then false
  else if !isdigit (charAt date 3) || !isdigit (charAt date 4) then false
  else if charAt date 5 ≠ '-' then false
  else if !isdigit (charAt date 6) || !isdigit (charAt date 7) || !isdigit (charAt date 8)
      || !isdigit (charAt date 9) then false
  else true

/-- Source: `string month_key(const string &date)`, lines 25-29. -/
def month_key (date : String) : String :=
  if !valid_date_format date then "00-0000"
  else substr date 3 7

/-! ## Transactions -/

/-- The two concrete subclasses of `Transaction`. -/
inductive Kind where
  | Income
  | Expense
deriving DecidableEq, Repr

/-- Source: `class Transaction` (lines 34-54) together with the subclass it was
constructed as. -/
structure Transaction where
  amount : ℚ
  category : String
  date : String
  description : String
  kind : Kind
deriving DecidableEq

/-- Source: `Income(amt, cat, dt, desc)`, lines 99-100. -/
def Income (amt : ℚ) (cat dt : String) (desc : String := "") : Transaction :=
  { amount := amt, category := cat, date := dt, description := desc, kind := Kind.Income }

/-- Source: `Expense(amt, cat, dt, desc)`, lines 107-108. -/
def Expense (amt : ℚ) (cat dt : String) (desc : String := "") : Transaction :=
  { amount := amt, category := cat, date := dt, description := desc, kind := Kind.Expense }

/-- Source: `double getAmount() const`. -/
def Transaction.getAmount (t : Transaction) : ℚ := t.amount

/-- Source: `string getCategory() const`. -/
def Transaction.getCategory (t : Transaction) : String := t.category

/-- Source: `string getDate() const`. -/
def Transaction.getDate (t : Transaction) : String := t.date

/-- Source: `string getDesc() const`. -/
def Transaction.getDesc (t : Transaction) : String := t.description

/-- Source: `virtual string type() const`: `"Income"` (line 102) or `"Expense"` (line 110). -/
def Transaction.type (t : Transaction) : String :=
  match t.kind with
  | Kind.Income => "Income"
  | Kind.Expense => "Expense"

/-! ## Account -/

/-- Source: `class Account`, lines 57-94: the balance and the transaction vector. -/
structure Account where
  balance : ℚ
  transactions : List Transaction
deriving DecidableEq

/-- The constructor `Account() : balance(0.0) {}`, line 63. -/
def Account.new : Account := { balance := 0, transactions := [] }

/-- Source: `void deposit(double amt) { balance += amt; }`. -/
def Account.deposit (acc : Account) (amt : ℚ) : Account :=
  { acc with balance := acc.balance + amt }

/-- Source: `void withdraw(double amt) { balance -= amt; }`. -/
def Account.withdraw (acc : Account) (amt : ℚ) : Account :=
  { acc with balance := acc.balance - amt }

/-- Source: `double getBalance() const`. -/
def Account.getBalance (acc : Account) : ℚ := acc.balance

/-- Source: `const vector<shared_ptr<Transaction>>& getTransactions() const`. -/
def Account.getTransactions (acc : Account) : List Transaction := acc.transactions

/-- Source: `virtual void apply(Account &acc) const`: `Income::apply` deposits the
amount (line 101), `Expense::apply` withdraws it (line 109). -/
def Transaction.apply (t : Transaction) (acc : Account) : Account :=
  match t.kind with
  | Kind.Income => acc.deposit t.amount
  | Kind.Expense => acc.withdraw t.amount

/-- What one call of `addTransaction` yields: the returned `bool`, the account
after the call, and the text written to `cout`. -/
structure AddResult where
  ret : Bool
  acc : Account
  out : List String
deriving DecidableEq

/-- Source: `bool Account::addTransaction(shared_ptr<Transaction> tx)`, lines 70-83. -/
def Account.addTransaction (acc : Account) (tx : Option Transaction) : AddResult :=
  match tx with
  | none => { ret := false, acc := acc, out := [] }
  | some t =>
    if t.getAmount ≤ 0 then
      { ret := false, acc := acc, out := ["Error: amount must be positive.\n"] }
    else if !valid_date_format t.getDate then
      { ret := false, acc := acc, out := ["Error: invalid date format.\n"] }
    else
      let acc1 := t.apply acc
      { ret := true, acc := { acc1 with transactions := acc1.transactions ++ [t] }, out := [] }

/-- Source: `Account::getTransactionsForMonth`, lines 87-93: the loop over the
transaction vector, pushing each match at the back of `out`. -/
def Account.getTransactionsForMonth (acc : Account) (monthYear : String) : List Transaction :=
  acc.transactions.foldl
    (fun out t => if month_key t.getDate == monthYear then out ++ [t] else out) []

/-- A sequence of `addTransaction` calls, each on the account the previous one
left. -/
def addAll (acc : Account) (txs : List (Option Transaction)) : Account :=
  txs.foldl (fun a tx => (a.addTransaction tx).acc) acc

/-! ## ReportGenerator -/

/-- An `unordered_map<string, double>`: a list of (key, value) entries with
pairwise different keys. -/
abbrev CatMap := List (String × ℚ)

/-- The statement `m[k] += v`: `operator[]` inserts `k` with value `0.0` when it
is absent, then `v` is added to the value at `k`. -/
def CatMap.addAt : CatMap → String → ℚ → CatMap
  | [], k, v => [(k, 0 + v)]
  | (k1, x) :: rest, k, v =>
    if k1 = k then (k1, x + v) :: rest else (k1, x) :: CatMap.addAt rest k v

/-- Source: `struct Summary`, lines 116-122. -/
structure Summary where
  totalIncome : ℚ := 0
  totalExpense : ℚ := 0
  net : ℚ := 0
  byCategoryIncome : CatMap := []
  byCategoryExpense : CatMap := []
deriving DecidableEq

/-- The body of the loop of `generateMonthlyReport`, lines 128-134. -/
def reportStep (s : Summary) (t : Transaction) : Summary :=
  if t.type == "Income" then
    { s with totalIncome := s.totalIncome + t.getAmount,
             byCategoryIncome := CatMap.addAt s.byCategoryIncome t.getCategory t.getAmount }
  else
    { s with totalExpense := s.totalExpense + t.getAmount,
             byCategoryExpense := CatMap.addAt s.byCategoryExpense t.getCategory t.getAmount }

/-- Source: `ReportGenerator::generateMonthlyReport`, lines 124-138. -/
def generateMonthlyReport (acc : Account) (monthYear : String) : Summary :=
  let txs := acc.getTransactionsForMonth monthYear
  let s := txs.foldl reportStep {}
  { s with net := s.totalIncome - s.totalExpense }

/-- The three numbers `printAllTimeReport` writes. -/
structure AllTime where
  income : ℚ
  expense : ℚ
  net : ℚ
deriving DecidableEq

/-- Source: `ReportGenerator::printAllTimeReport`, lines 156-167: the loop over
`acc.getTransactions()` and the three values it prints (total income, total
expense, `income - expense`). -/
def printAllTimeReport (acc : Account) : AllTime :=
  let p := acc.getTransactions.foldl
    (fun (p : ℚ × ℚ) t =>
      if t.type == "Income" then (p.1 + t.getAmount, p.2) else (p.1, p.2 + t.getAmount))
    (0, 0)
  { income := p.1, expense := p.2, net := p.1 - p.2 }

/-! ## Specification-side notions -/

/-- Sum of the amounts of the transactions of kind `k` in a list. -/
def sumKind (k : Kind) (l : List Transaction) : ℚ :=
  ((l.filter (fun t => t.kind = k)).map (fun t => t.amount)).sum

/-- The category map of a summary that belongs to kind `k`. -/
def Summary.bucket (s : Summary) (k : Kind) : CatMap :=
  match k with
  | Kind.Income => s.byCategoryIncome
  | Kind.Expense => s.byCategoryExpense

/-- The scenario of the spec: Income 1000 on 01-01-2024, Expense 200 on
15-01-2024, Expense 50 on 20-02-2024, added in that order to a new account. -/
def scenario : Account :=
  addAll Account.new
    [some (Income 1000 "Salary" "01-01-2024"), some (Expense 200 "Food" "15-01-2024"),
     some (Expense 50 "Food" "20-02-2024")]

/-! ## Operations on the account -/

/-- One call on the account, as the menu loop of `main` makes them (lines
230, 238, 241): `acc.addTransaction(tx)`, the monthly report for a month key,
and the all-time report. -/
inductive Op where
  | add (tx : Option Transaction)
  | monthlyReport (monthYear : String)
  | allTimeReport

/-- What a call hands back: the `bool` of `addTransaction`, the `Summary` of
`generateMonthlyReport`, or the three numbers of `printAllTimeReport`. -/
inductive Reply where
  | added (ret : Bool)
  | monthly (s : Summary)
  | allTime (r : AllTime)
deriving DecidableEq

/-- The account after a call and what the call hands back. `addTransaction`
is the only non-const member function among the three; `generateMonthlyReport`
(line 124) and `printAllTimeReport` (line 156) take `const Account &acc` and
call only its const member functions `getTransactionsForMonth`,
`getTransactions` and `getBalance`, so the account after them is the account
they were given. -/
def Op.run (acc : Account) : Op → Account × Reply
  | Op.add tx => ((acc.addTransaction tx).acc, Reply.added (acc.addTransaction tx).ret)
  | Op.monthlyReport monthYear => (acc, Reply.monthly (generateMonthlyReport acc monthYear))
  | Op.allTimeReport => (acc, Reply.allTime (printAllTimeReport acc))

/-- The account after a sequence of calls. -/
def runOps (acc : Account) (ops : List Op) : Account :=
  ops.foldl (fun a op => (Op.run a op).1) acc

/-- The keys of a category map, in the order of the entries. -/
def CatMap.keys (m : CatMap) : List String := m.map Prod.fst

/-- The sum of all values of a category map. -/
def CatMap.total (m : CatMap) : ℚ := (m.map Prod.snd).sum

/-- The distinct month keys of the transactions of the history. -/
def monthKeys (acc : Account) : List String :=
  (acc.getTransactions.map (fun t => month_key t.date)).dedup

/-- The shape `MM-YYYY` of a month key: exactly 7 characters, `'-'` at position 2
and ASCII digits at positions 0, 1, 3, 4, 5, 6. -/
def monthKeyShape (s : String) : Prop :=
  s.length = 7 ∧ s.data[2]? = some '-' ∧
    ∀ i ∈ [0, 1, 3, 4, 5, 6], ∃ c, s.data[i]? = some c ∧ '0' ≤ c ∧ c ≤ '9'

/-! ## Date utilities: lemmas -/

theorem isdigit_iff (c : Char) : isdigit c = true ↔ '0' ≤ c ∧ c ≤ '9' := by
  simp only [isdigit, decide_eq_true_eq, Char.le_def, Char.toNat]
  rfl

theorem length_eq_ten (l : List Char) (h : l.length = 10) :
    ∃ c0 c1 c2 c3 c4 c5 c6 c7 c8 c9, l = [c0, c1, c2, c3, c4, c5, c6, c7, c8, c9] := by
  match l, h with
  | [c0, c1, c2, c3, c4, c5, c6, c7, c8, c9], _ =>
    exact ⟨c0, c1, c2, c3, c4, c5, c6, c7, c8, c9, rfl⟩

theorem valid_date_format_mk (c0 c1 c2 c3 c4 c5 c6 c7 c8 c9 : Char) :
    valid_date_format ⟨[c0, c1, c2, c3, c4, c5, c6, c7, c8, c9]⟩ = true ↔
      (isdigit c0 = true ∧ isdigit c1 = true ∧ c2 = '-' ∧ isdigit c3 = true ∧
        isdigit c4 = true ∧ c5 = '-' ∧ isdigit c6 = true ∧ isdigit c7 = true ∧
        isdigit c8 = true ∧ isdigit c9 = true) := by
  simp only [valid_date_format, charAt, String.length, List.length_cons, List.length_nil,
    List.getD_cons_zero, List.getD_cons_succ]
  simp
  tauto

theorem valid_date_format_length (date : String) (h : valid_date_format date = true) :
    date.length = 10 := by
  unfold valid_date_format at h
  by_contra hne
  simp [hne] at h

theorem month_key_of_invalid (date : String) (h : valid_date_format date = false) :
    month_key date = "00-0000" := by
  simp [month_key, h]

theorem month_key_of_valid (date : String) (h : valid_date_format date = true) :
    month_key date = substr date 3 7 := by
  simp [month_key, h]

/-! ## The claims on the date utilities -/

/-- C5: `valid_date_format date` is true exactly when `date` has 10 characters,
the characters at positions 2 and 5 are `'-'` and the characters at positions
0, 1, 3, 4, 6, 7, 8, 9 are ASCII digits; no calendar check is made, so
"15-03-2024" and "99-99-9999" are accepted while "2024-03-15" and "15-3-2024"
are rejected. -/
theorem valid_date_format_iff (date : String) :
    (valid_date_format date = true ↔
      (date.length = 10 ∧ date.data[2]? = some '-' ∧ date.data[5]? = some '-' ∧
        ∀ i ∈ [0, 1, 3, 4, 6, 7, 8, 9], ∃ c, date.data[i]? = some c ∧ '0' ≤ c ∧ c ≤ '9')) ∧
    valid_date_format "15-03-2024" = true ∧ valid_date_format "99-99-9999" = true ∧
    valid_date_format "2024-03-15" = false ∧ valid_date_format "15-3-2024" = false := by
  refine ⟨⟨fun hv => ?_, fun hs => ?_⟩, by decide, by decide, by decide, by decide⟩
  · have hlen := valid_date_format_length date hv
    obtain ⟨l⟩ := date
    obtain ⟨c0, c1, c2, c3, c4, c5, c6, c7, c8, c9, rfl⟩ := length_eq_ten l hlen
    rw [valid_date_format_mk] at hv
    simp only [isdigit_iff] at hv
    obtain ⟨h0, h1, h2, h3, h4, h5, h6, h7, h8, h9⟩ := hv
    refine ⟨hlen, by simp [h2], by simp [h5], ?_⟩
    intro i hi
    simp only [List.mem_cons, List.mem_singleton, List.not_mem_nil, or_false] at hi
    rcases hi with rfl | rfl | rfl | rfl | rfl | rfl | rfl | rfl
    · exact ⟨c0, rfl, h0⟩
    · exact ⟨c1, rfl, h1⟩
    · exact ⟨c3, rfl, h3⟩
    · exact ⟨c4, rfl, h4⟩
    · exact ⟨c6, rfl, h6⟩
    · exact ⟨c7, rfl, h7⟩
    · exact ⟨c8, rfl, h8⟩
    · exact ⟨c9, rfl, h9⟩
  · obtain ⟨hlen, h2, h5, hd⟩ := hs
    obtain ⟨l⟩ := date
    obtain ⟨c0, c1, c2, c3, c4, c5, c6, c7, c8, c9, rfl⟩ := length_eq_ten l hlen
    rw [valid_date_format_mk]
    simp only [isdigit_iff]
    have get := fun i hi => hd i hi
    obtain ⟨_, e0, d0⟩ := get 0 (by simp)
    obtain ⟨_, e1, d1⟩ := get 1 (by simp)
    obtain ⟨_, e3, d3⟩ := get 3 (by simp)
    obtain ⟨_, e4, d4⟩ := get 4 (by simp)
    obtain ⟨_, e6, d6⟩ := get 6 (by simp)
    obtain ⟨_, e7, d7⟩ := get 7 (by simp)
    obtain ⟨_, e8, d8⟩ := get 8 (by simp)
    obtain ⟨_, e9, d9⟩ := get 9 (by simp)
    simp only [List.getElem?_cons_succ, List.getElem?_cons_zero, Option.some.injEq] at *
    subst e0 e1 e3 e4 e6 e7 e8 e9 h2 h5
    exact ⟨d0, d1, rfl, d3, d4, rfl, d6, d7, d8, d9⟩

/-- C6: `month_key date` is "00-0000" when `valid_date_format date` is false, and
otherwise it is the 7-character substring of `date` at positions 3 through 9:
it has 7 characters and its character at position `i` is the character of
`date` at position `3 + i`. In particular `month_key "15-03-2024" = "03-2024"`
and `month_key "bad-date" = "00-0000"`. -/
theorem month_key_spec (date : String) :
    (valid_date_format date = false → month_key date = "00-0000") ∧
    (valid_date_format date = true →
      (month_key date).length = 7 ∧
        ∀ i, i < 7 → ∃ c, (month_key date).data[i]? = some c ∧ date.data[3 + i]? = some c) ∧
    month_key "15-03-2024" = "03-2024" ∧ month_key "bad-date" = "00-0000" := by
  refine ⟨month_key_of_invalid date, fun hv => ?_, by decide, by decide⟩
  have hlen := valid_date_format_length date hv
  rw [month_key_of_valid date hv]
  obtain ⟨l⟩ := date
  obtain ⟨c0, c1, c2, c3, c4, c5, c6, c7, c8, c9, rfl⟩ := length_eq_ten l hlen
  refine ⟨rfl, ?_⟩
  intro i hi
  interval_cases i
  · exact ⟨c3, rfl, rfl⟩
  · exact ⟨c4, rfl, rfl⟩
  · exact ⟨c5, rfl, rfl⟩
  · exact ⟨c6, rfl, rfl⟩
  · exact ⟨c7, rfl, rfl⟩
  · exact ⟨c8, rfl, rfl⟩
  · exact ⟨c9, rfl, rfl⟩

/-- The instance of C6 at the valid date "15-03-2024" and the invalid "bad-date". -/
theorem month_key_spec_witness :
    valid_date_format "15-03-2024" = true ∧ valid_date_format "bad-date" = false ∧
    (month_key "15-03-2024").length = 7 ∧ month_key "bad-date" = "00-0000" :=
  ⟨by decide, by decide, ((month_key_spec "15-03-2024").2.1 (by decide)).1,
    (month_key_spec "bad-date").1 (by decide)⟩

/-! ## Account: lemmas -/

theorem addTransaction_none (acc : Account) :
    acc.addTransaction none = { ret := false, acc := acc, out := [] } := rfl

theorem addTransaction_nonpos (acc : Account) (t : Transaction) (h : t.amount ≤ 0) :
    acc.addTransaction (some t) =
      { ret := false, acc := acc, out := ["Error: amount must be positive.\n"] } := by
  simp [Account.addTransaction, Transaction.getAmount, h]

theorem addTransaction_bad_date (acc : Account) (t : Transaction) (ha : 0 < t.amount)
    (hd : valid_date_format t.date = false) :
    acc.addTransaction (some t) =
      { ret := false, acc := acc, out := ["Error: invalid date format.\n"] } := by
  simp [Account.addTransaction, Transaction.getAmount, Transaction.getDate, not_le.mpr ha, hd]

theorem addTransaction_accept (acc : Account) (t : Transaction) (ha : 0 < t.amount)
    (hd : valid_date_format t.date = true) :
    acc.addTransaction (some t) =
      { ret := true,
        acc := { balance := (t.apply acc).balance, transactions := acc.transactions ++ [t] },
        out := [] } := by
  have happ : (t.apply acc).transactions = acc.transactions := by
    unfold Transaction.apply Account.deposit Account.withdraw
    cases t.kind <;> rfl
  simp [Account.addTransaction, Transaction.getAmount, Transaction.getDate, not_le.mpr ha, hd,
    happ]

theorem scenario_eq :
    scenario =
      { balance := 750,
        transactions := [Income 1000 "Salary" "01-01-2024", Expense 200 "Food" "15-01-2024",
          Expense 50 "Food" "20-02-2024"] } := by
  have d1 : valid_date_format "01-01-2024" = true := by decide
  have d2 : valid_date_format "15-01-2024" = true := by decide
  have d3 : valid_date_format "20-02-2024" = true := by decide
  have a1 : (0 : ℚ) < (Income 1000 "Salary" "01-01-2024").amount := by norm_num [Income]
  have a2 : (0 : ℚ) < (Expense 200 "Food" "15-01-2024").amount := by norm_num [Expense]
  have a3 : (0 : ℚ) < (Expense 50 "Food" "20-02-2024").amount := by norm_num [Expense]
  simp only [scenario, addAll, List.foldl_cons, List.foldl_nil]
  rw [addTransaction_accept Account.new _ a1 d1]
  rw [addTransaction_accept _ _ a2 d2]
  rw [addTransaction_accept _ _ a3 d3]
  simp only [Transaction.apply, Income, Expense, Account.new, Account.deposit, Account.withdraw,
    List.nil_append, List.cons_append]
  norm_num

theorem sumKind_append_singleton (k : Kind) (l : List Transaction) (t : Transaction) :
    sumKind k (l ++ [t]) = sumKind k l + (if t.kind = k then t.amount else 0) := by
  unfold sumKind
  by_cases h : t.kind = k <;> simp [List.filter_append, List.filter_cons, h]

theorem addTransaction_cases (acc : Account) (tx : Option Transaction) :
    ((acc.addTransaction tx).ret = false ∧ (acc.addTransaction tx).acc = acc) ∨
    (∃ t, tx = some t ∧ 0 < t.amount ∧ valid_date_format t.date = true ∧
      (acc.addTransaction tx).ret = true ∧
      (acc.addTransaction tx).acc =
        { balance := (t.apply acc).balance, transactions := acc.transactions ++ [t] }) := by
  cases tx with
  | none => exact Or.inl ⟨rfl, rfl⟩
  | some t =>
    by_cases ha : t.amount ≤ 0
    · rw [addTransaction_nonpos acc t ha]; exact Or.inl ⟨rfl, rfl⟩
    · have ha := not_le.mp ha
      cases hd : valid_date_format t.date with
      | false => rw [addTransaction_bad_date acc t ha hd]; exact Or.inl ⟨rfl, rfl⟩
      | true =>
        rw [addTransaction_accept acc t ha hd]
        exact Or.inr ⟨t, rfl, ha, hd, rfl, rfl⟩

theorem apply_balance (t : Transaction) (acc : Account) :
    (t.apply acc).balance =
      acc.balance + (if t.kind = Kind.Income then t.amount else 0) -
        (if t.kind = Kind.Expense then t.amount else 0) := by
  unfold Transaction.apply Account.deposit Account.withdraw
  cases t.kind <;> simp

/-- The balance invariant of an account: the balance is the income of the
history minus its expense. -/
theorem addTransaction_balance_inv (acc : Account) (tx : Option Transaction)
    (h : acc.balance = sumKind Kind.Income acc.transactions -
      sumKind Kind.Expense acc.transactions) :
    (acc.addTransaction tx).acc.balance =
      sumKind Kind.Income (acc.addTransaction tx).acc.transactions -
        sumKind Kind.Expense (acc.addTransaction tx).acc.transactions := by
  rcases addTransaction_cases acc tx with ⟨_, he⟩ | ⟨t, _, _, _, _, he⟩
  · rw [he]; exact h
  · rw [he]
    simp only [sumKind_append_singleton, apply_balance, h]
    ring

theorem addAll_balance_inv (txs : List (Option Transaction)) (acc : Account)
    (h : acc.balance = sumKind Kind.Income acc.transactions -
      sumKind Kind.Expense acc.transactions) :
    (addAll acc txs).balance =
      sumKind Kind.Income (addAll acc txs).transactions -
        sumKind Kind.Expense (addAll acc txs).transactions := by
  induction txs generalizing acc with
  | nil => exact h
  | cons tx rest ih =>
    simp only [addAll, List.foldl_cons]
    exact ih _ (addTransaction_balance_inv acc tx h)

/-! ## The claims on `addTransaction` -/

/-- C1: `addTransaction` returns false exactly when the transaction is null, or
its amount is `<= 0`, or its date fails `valid_date_format`; in every other case
(a transaction with a positive amount and a well-formed date) it returns true. -/
theorem addTransaction_ret_iff (acc : Account) (tx : Option Transaction) :
    ((acc.addTransaction tx).ret = false ↔
      (tx = none ∨ ∃ t, tx = some t ∧ (t.amount ≤ 0 ∨ valid_date_format t.date = false))) ∧
    ((acc.addTransaction tx).ret = true ↔
      ∃ t, tx = some t ∧ 0 < t.amount ∧ valid_date_format t.date = true) := by
  cases tx with
  | none => simp [addTransaction_none]
  | some t =>
    by_cases ha : t.amount ≤ 0
    · rw [addTransaction_nonpos acc t ha]
      simp [ha, not_lt.mpr ha]
    · have hpos := not_le.mp ha
      cases hd : valid_date_format t.date with
      | false => rw [addTransaction_bad_date acc t hpos hd]; simp [hd]
      | true => rw [addTransaction_accept acc t hpos hd]; simp [hd, ha, hpos]

/-- C2: when `addTransaction` returns false, the balance and the transaction
history (contents and order) after the call are those before the call. -/
theorem addTransaction_false_unchanged (acc : Account) (tx : Option Transaction)
    (h : (acc.addTransaction tx).ret = false) :
    (acc.addTransaction tx).acc.getBalance = acc.getBalance ∧
    (acc.addTransaction tx).acc.getTransactions = acc.getTransactions := by
  rcases addTransaction_cases acc tx with ⟨_, he⟩ | ⟨t, _, _, _, ht, _⟩
  · rw [he]; exact ⟨rfl, rfl⟩
  · rw [ht] at h; cases h

/-- The instances of C2 at the account of the scenario for the three kinds of
rejection: an expense of amount 0, a null transaction, and an income dated
"2024-03-15". -/
theorem addTransaction_false_unchanged_witness :
    ((scenario.addTransaction (some (Expense 0 "Food" "15-01-2024"))).ret = false ∧
      (scenario.addTransaction (some (Expense 0 "Food" "15-01-2024"))).acc.getBalance =
        scenario.getBalance ∧
      (scenario.addTransaction (some (Expense 0 "Food" "15-01-2024"))).acc.getTransactions =
        scenario.getTransactions) ∧
    ((scenario.addTransaction none).ret = false ∧
      (scenario.addTransaction none).acc.getBalance = scenario.getBalance ∧
      (scenario.addTransaction none).acc.getTransactions = scenario.getTransactions) ∧
    ((scenario.addTransaction (some (Income 10 "Gift" "2024-03-15"))).ret = false ∧
      (scenario.addTransaction (some (Income 10 "Gift" "2024-03-15"))).acc.getBalance =
        scenario.getBalance ∧
      (scenario.addTransaction (some (Income 10 "Gift" "2024-03-15"))).acc.getTransactions =
        scenario.getTransactions) :=
  have h1 : (scenario.addTransaction (some (Expense 0 "Food" "15-01-2024"))).ret = false := by
    rw [addTransaction_nonpos scenario _ (by simp [Expense])]
  have h2 : (scenario.addTransaction none).ret = false := rfl
  have h3 : (scenario.addTransaction (some (Income 10 "Gift" "2024-03-15"))).ret = false := by
    rw [addTransaction_bad_date scenario _ (by norm_num [Income]) (by decide)]
  ⟨⟨h1, addTransaction_false_unchanged scenario _ h1⟩,
    ⟨h2, addTransaction_false_unchanged scenario _ h2⟩,
    ⟨h3, addTransaction_false_unchanged scenario _ h3⟩⟩

/-- C3: a non-null transaction with amount `a > 0` and a date accepted by
`valid_date_format` is accepted: `addTransaction` returns true, the history is
the old one with the transaction appended as last element, and the balance is
`b + a` for an Income and `b - a` for an Expense. -/
theorem addTransaction_accept_spec (acc : Account) (t : Transaction) (ha : 0 < t.amount)
    (hd : valid_date_format t.date = true) :
    (acc.addTransaction (some t)).ret = true ∧
    (acc.addTransaction (some t)).acc.getTransactions = acc.getTransactions ++ [t] ∧
    (t.kind = Kind.Income →
      (acc.addTransaction (some t)).acc.getBalance = acc.getBalance + t.amount) ∧
    (t.kind = Kind.Expense →
      (acc.addTransaction (some t)).acc.getBalance = acc.getBalance - t.amount) := by
  rw [addTransaction_accept acc t ha hd]
  refine ⟨rfl, rfl, fun hk => ?_, fun hk => ?_⟩ <;>
    simp [Account.getBalance, apply_balance, hk]

/-- The instances of C3 at the account of the scenario: an expense of 30 on
21-02-2024 takes the balance from 750 to 720, an income of 12.5 on 22-02-2024
takes it to 762.5; each is appended to the history. -/
theorem addTransaction_accept_spec_witness :
    ((scenario.addTransaction (some (Expense 30 "Food" "21-02-2024"))).ret = true ∧
      (scenario.addTransaction (some (Expense 30 "Food" "21-02-2024"))).acc.getTransactions =
        scenario.getTransactions ++ [Expense 30 "Food" "21-02-2024"] ∧
      (scenario.addTransaction (some (Expense 30 "Food" "21-02-2024"))).acc.getBalance =
        scenario.getBalance - 30) ∧
    ((scenario.addTransaction (some (Income (25 / 2) "Gift" "22-02-2024"))).ret = true ∧
      (scenario.addTransaction (some (Income (25 / 2) "Gift" "22-02-2024"))).acc.getTransactions =
        scenario.getTransactions ++ [Income (25 / 2) "Gift" "22-02-2024"] ∧
      (scenario.addTransaction (some (Income (25 / 2) "Gift" "22-02-2024"))).acc.getBalance =
        scenario.getBalance + 25 / 2) :=
  have h := addTransaction_accept_spec scenario (Expense 30 "Food" "21-02-2024")
    (by norm_num [Expense]) (by decide)
  have g := addTransaction_accept_spec scenario (Income (25 / 2) "Gift" "22-02-2024")
    (by norm_num [Income]) (by decide)
  ⟨⟨h.1, h.2.1, h.2.2.2 rfl⟩, ⟨g.1, g.2.1, g.2.2.1 rfl⟩⟩

/-- C4: after any finite sequence of `addTransaction` calls (accepted or rejected,
in any mix) on a freshly constructed account, the balance is the sum of the
amounts of the Income transactions of the history minus the sum of the amounts
of its Expense transactions. For Income 1000 on 01-01-2024, Expense 200 on
15-01-2024 and Expense 50 on 20-02-2024 the balance is 750. -/
theorem balance_eq_income_minus_expense (txs : List (Option Transaction)) :
    (addAll Account.new txs).getBalance =
      sumKind Kind.Income (addAll Account.new txs).getTransactions -
        sumKind Kind.Expense (addAll Account.new txs).getTransactions ∧
    (addAll Account.new
      [some (Income 1000 "Salary" "01-01-2024"), some (Expense 200 "Food" "15-01-2024"),
        some (Expense 50 "Food" "20-02-2024")]).getBalance = 750 := by
  refine ⟨addAll_balance_inv txs Account.new (by simp [Account.new, sumKind]), ?_⟩
  have h := scenario_eq
  unfold scenario at h
  rw [h]
  rfl

/-! ## Month filter and reports: lemmas -/

theorem foldl_push_eq_filter (p : Transaction → Bool) (l out : List Transaction) :
    l.foldl (fun out t => if p t then out ++ [t] else out) out = out ++ l.filter p := by
  induction l generalizing out with
  | nil => simp
  | cons t rest ih =>
    rw [List.foldl_cons, ih]
    cases hp : p t <;> simp [List.filter_cons, hp]

theorem getTransactionsForMonth_filter (acc : Account) (monthYear : String) :
    acc.getTransactionsForMonth monthYear =
      acc.transactions.filter (fun t => decide (month_key t.date = monthYear)) := by
  unfold Account.getTransactionsForMonth
  have h := foldl_push_eq_filter (fun t => month_key t.getDate == monthYear)
    acc.transactions []
  simp only [List.nil_append] at h
  rw [h]
  apply List.filter_congr
  intro t _
  by_cases ht : month_key t.date = monthYear <;> simp [Transaction.getDate, ht]

theorem type_eq_Income (t : Transaction) :
    (t.type == "Income") = decide (t.kind = Kind.Income) := by
  unfold Transaction.type
  cases t.kind <;> decide

theorem allTime_fold (l : List Transaction) (p : ℚ × ℚ) :
    l.foldl
        (fun (p : ℚ × ℚ) t =>
          if t.type == "Income" then (p.1 + t.getAmount, p.2) else (p.1, p.2 + t.getAmount))
        p =
      (p.1 + sumKind Kind.Income l, p.2 + sumKind Kind.Expense l) := by
  induction l generalizing p with
  | nil => simp [sumKind]
  | cons t rest ih =>
    rw [List.foldl_cons, ih]
    simp only [type_eq_Income, Transaction.getAmount, sumKind]
    cases hk : t.kind <;> simp [List.filter_cons, hk, add_assoc]

/-! ## The claims on the month filter and the all-time report -/

/-- C7: `getTransactionsForMonth monthYear` is the order-preserving filter of the
history by `month_key t.date == monthYear`: it equals the filtered list, so it
is a sublist of the history (same relative order) and holds each transaction
with that month key as many times as the history does and no other one. -/
theorem getTransactionsForMonth_spec (acc : Account) (monthYear : String) :
    acc.getTransactionsForMonth monthYear =
      acc.getTransactions.filter (fun t => decide (month_key t.date = monthYear)) ∧
    (acc.getTransactionsForMonth monthYear).Sublist acc.getTransactions ∧
    ∀ t, (acc.getTransactionsForMonth monthYear).count t =
      if month_key t.date = monthYear then acc.getTransactions.count t else 0 := by
  rw [getTransactionsForMonth_filter]
  refine ⟨rfl, List.filter_sublist _, fun t => ?_⟩
  by_cases ht : month_key t.date = monthYear
  · rw [List.count_filter (by simpa using ht), if_pos ht]
    rfl
  · rw [if_neg ht, List.count_eq_zero]
    intro hmem
    exact ht (by simpa using (List.mem_filter.mp hmem).2)

/-- C10: the all-time report computes income as the sum of the amounts of all
Income transactions of the whole history, expense as the sum of the amounts of
all Expense transactions of the whole history and net as income minus expense,
with no month filtering. For the scenario (Income 1000 on 01-01-2024, Expense
200 on 15-01-2024, Expense 50 on 20-02-2024): income 1000, expense 250, net
750. -/
theorem printAllTimeReport_spec (acc : Account) :
    (printAllTimeReport acc).income = sumKind Kind.Income acc.getTransactions ∧
    (printAllTimeReport acc).expense = sumKind Kind.Expense acc.getTransactions ∧
    (printAllTimeReport acc).net =
      (printAllTimeReport acc).income - (printAllTimeReport acc).expense ∧
    printAllTimeReport scenario = { income := 1000, expense := 250, net := 750 } := by
  have h : ∀ a : Account, printAllTimeReport a =
      { income := sumKind Kind.Income a.transactions,
        expense := sumKind Kind.Expense a.transactions,
        net := sumKind Kind.Income a.transactions - sumKind Kind.Expense a.transactions } := by
    intro a
    simp only [printAllTimeReport, Account.getTransactions, allTime_fold, zero_add]
  refine ⟨by rw [h]; rfl, by rw [h]; rfl, by rw [h], ?_⟩
  rw [h, scenario_eq]
  simp [sumKind, Income, Expense, List.filter_cons]
  norm_num

/-! ## Monthly report: lemmas -/

theorem reportStep_totals (s : Summary) (t : Transaction) :
    (reportStep s t).totalIncome =
        s.totalIncome + (if t.kind = Kind.Income then t.amount else 0) ∧
      (reportStep s t).totalExpense =
        s.totalExpense + (if t.kind = Kind.Expense then t.amount else 0) ∧
      (reportStep s t).net = s.net := by
  unfold reportStep
  rw [type_eq_Income]
  cases hk : t.kind <;> simp [Transaction.getAmount]

theorem reportStep_bucket (s : Summary) (t : Transaction) (k : Kind) :
    (reportStep s t).bucket k =
      if t.kind = k then CatMap.addAt (s.bucket k) t.category t.amount else s.bucket k := by
  unfold reportStep
  rw [type_eq_Income]
  cases hk : t.kind <;> cases k <;>
    simp [Summary.bucket, Transaction.getAmount, Transaction.getCategory]

theorem report_fold_totals (l : List Transaction) (s : Summary) :
    (l.foldl reportStep s).totalIncome = s.totalIncome + sumKind Kind.Income l ∧
      (l.foldl reportStep s).totalExpense = s.totalExpense + sumKind Kind.Expense l ∧
      (l.foldl reportStep s).net = s.net := by
  induction l generalizing s with
  | nil => simp [sumKind]
  | cons t rest ih =>
    obtain ⟨h1, h2, h3⟩ := ih (reportStep s t)
    obtain ⟨g1, g2, g3⟩ := reportStep_totals s t
    rw [List.foldl_cons, h1, h2, h3, g1, g2, g3]
    refine ⟨?_, ?_, rfl⟩ <;>
      cases hk : t.kind <;> simp [sumKind, List.filter_cons, hk, add_assoc]

theorem generateMonthlyReport_fields (acc : Account) (monthYear : String) :
    (generateMonthlyReport acc monthYear).totalIncome =
        sumKind Kind.Income
          (acc.transactions.filter (fun t => decide (month_key t.date = monthYear))) ∧
      (generateMonthlyReport acc monthYear).totalExpense =
        sumKind Kind.Expense
          (acc.transactions.filter (fun t => decide (month_key t.date = monthYear))) ∧
      (generateMonthlyReport acc monthYear).net =
        (generateMonthlyReport acc monthYear).totalIncome -
          (generateMonthlyReport acc monthYear).totalExpense := by
  obtain ⟨h1, h2, _⟩ := report_fold_totals
    (acc.transactions.filter (fun t => decide (month_key t.date = monthYear))) {}
  have e1 : (generateMonthlyReport acc monthYear).totalIncome =
      ((acc.transactions.filter (fun t => decide (month_key t.date = monthYear))).foldl
        reportStep {}).totalIncome := by
    simp only [generateMonthlyReport, getTransactionsForMonth_filter]
  have e2 : (generateMonthlyReport acc monthYear).totalExpense =
      ((acc.transactions.filter (fun t => decide (month_key t.date = monthYear))).foldl
        reportStep {}).totalExpense := by
    simp only [generateMonthlyReport, getTransactionsForMonth_filter]
  refine ⟨?_, ?_, rfl⟩
  · rw [e1, h1]; simp
  · rw [e2, h2]; simp

theorem month_key_scenario :
    month_key "01-01-2024" = "01-2024" ∧ month_key "15-01-2024" = "01-2024" ∧
      month_key "20-02-2024" = "02-2024" := by
  decide

/-! ## The claims on the monthly report -/

/-- C8: in the summary of `generateMonthlyReport`, `totalIncome` is the sum of the
amounts of the Income transactions of the history whose month key is
`monthYear`, `totalExpense` the same sum over the Expense transactions, and
`net` is `totalIncome - totalExpense`. For the scenario (Income 1000 on
01-01-2024, Expense 200 on 15-01-2024, Expense 50 on 20-02-2024) the report for
"01-2024" has totalIncome 1000, totalExpense 200 and net 800. -/
theorem generateMonthlyReport_totals (acc : Account) (monthYear : String) :
    (generateMonthlyReport acc monthYear).totalIncome =
      sumKind Kind.Income
        (acc.getTransactions.filter (fun t => decide (month_key t.date = monthYear))) ∧
    (generateMonthlyReport acc monthYear).totalExpense =
      sumKind Kind.Expense
        (acc.getTransactions.filter (fun t => decide (month_key t.date = monthYear))) ∧
    (generateMonthlyReport acc monthYear).net =
      (generateMonthlyReport acc monthYear).totalIncome -
        (generateMonthlyReport acc monthYear).totalExpense ∧
    (generateMonthlyReport scenario "01-2024").totalIncome = 1000 ∧
    (generateMonthlyReport scenario "01-2024").totalExpense = 200 ∧
    (generateMonthlyReport scenario "01-2024").net = 800 := by
  obtain ⟨h1, h2, h3⟩ := generateMonthlyReport_fields acc monthYear
  obtain ⟨s1, s2, s3⟩ := generateMonthlyReport_fields scenario "01-2024"
  obtain ⟨m1, m2, m3⟩ := month_key_scenario
  have e1 : (generateMonthlyReport scenario "01-2024").totalIncome = 1000 := by
    rw [s1, scenario_eq]
    simp [sumKind, Income, Expense, List.filter_cons, m1, m2, m3]
  have e2 : (generateMonthlyReport scenario "01-2024").totalExpense = 200 := by
    rw [s2, scenario_eq]
    simp [sumKind, Income, Expense, List.filter_cons, m1, m2, m3]
  refine ⟨h1, h2, h3, e1, e2, ?_⟩
  rw [s3, e1, e2]
  norm_num

theorem addTransaction_extends (acc : Account) (tx : Option Transaction) :
    acc.transactions <+: (acc.addTransaction tx).acc.transactions ∧
      (acc.addTransaction tx).acc.transactions.length =
        acc.transactions.length + (if (acc.addTransaction tx).ret = true then 1 else 0) := by
  rcases addTransaction_cases acc tx with ⟨hr, he⟩ | ⟨u, _, _, _, hr, he⟩
  · rw [he, hr]; exact ⟨List.prefix_refl _, by simp⟩
  · rw [he, hr]; exact ⟨List.prefix_append _ _, by simp⟩

theorem run_extends (acc : Account) (op : Op) :
    acc.transactions <+: (Op.run acc op).1.transactions := by
  cases op with
  | add tx => exact (addTransaction_extends acc tx).1
  | monthlyReport m => exact List.prefix_refl _
  | allTimeReport => exact List.prefix_refl _

theorem runOps_extends (ops : List Op) (acc : Account) :
    acc.transactions <+: (runOps acc ops).transactions := by
  induction ops generalizing acc with
  | nil => exact List.prefix_refl _
  | cons op rest ih =>
    simp only [runOps, List.foldl_cons]
    exact (run_extends acc op).trans (ih _)

theorem printAllTimeReport_eq (acc : Account) :
    printAllTimeReport acc =
      { income := sumKind Kind.Income acc.transactions,
        expense := sumKind Kind.Expense acc.transactions,
        net := sumKind Kind.Income acc.transactions - sumKind Kind.Expense acc.transactions } := by
  simp only [printAllTimeReport, Account.getTransactions, allTime_fold, zero_add]

/-! ## The claims on reachable accounts and on sequences of calls -/

/-- C12: the history is append-only. For every account and every `addTransaction`
call the history before the call is a prefix of the history after it, and the
length grows by 1 when the call returns true and by 0 when it returns false.
Along any sequence of calls (`addTransaction` and reports) the starting history
stays a prefix of the resulting one: every position of the old history still
holds the same transaction, so nothing is removed, reordered or replaced. -/
theorem history_append_only (acc : Account) (tx : Option Transaction) (ops : List Op) :
    acc.getTransactions <+: (acc.addTransaction tx).acc.getTransactions ∧
    (acc.addTransaction tx).acc.getTransactions.length =
      acc.getTransactions.length + (if (acc.addTransaction tx).ret = true then 1 else 0) ∧
    acc.getTransactions <+: (runOps acc ops).getTransactions ∧
    ∀ (i : Nat) (t : Transaction), acc.getTransactions[i]? = some t →
      (runOps acc ops).getTransactions[i]? = some t := by
  refine ⟨(addTransaction_extends acc tx).1, (addTransaction_extends acc tx).2,
    runOps_extends ops acc, fun i t hi => ?_⟩
  obtain ⟨suffix, hs⟩ := runOps_extends ops acc
  simp only [Account.getTransactions] at hi ⊢
  rw [← hs]
  have hlt : i < acc.transactions.length := by
    by_contra hge
    rw [List.getElem?_eq_none (not_lt.mp hge)] at hi
    cases hi
  rw [List.getElem?_append_left hlt]
  exact hi

/-- The instance of C12 at the scenario: after a report, a rejected and an
accepted `addTransaction`, position 1 of the history still holds Expense 200 on
15-01-2024. -/
theorem history_append_only_witness :
    scenario.getTransactions[1]? = some (Expense 200 "Food" "15-01-2024") ∧
    (runOps scenario
      [Op.monthlyReport "01-2024", Op.add none,
        Op.add (some (Income 5 "Gift" "02-03-2024"))]).getTransactions[1]? =
      some (Expense 200 "Food" "15-01-2024") :=
  have h1 : scenario.getTransactions[1]? = some (Expense 200 "Food" "15-01-2024") := by
    rw [scenario_eq]; rfl
  ⟨h1, (history_append_only scenario none
    [Op.monthlyReport "01-2024", Op.add none,
      Op.add (some (Income 5 "Gift" "02-03-2024"))]).2.2.2 1 _ h1⟩

/-- C15: for every account reached from a freshly constructed account by
`addTransaction` calls, the net of the all-time report equals the balance of
the account. -/
theorem allTime_net_eq_balance (txs : List (Option Transaction)) :
    (printAllTimeReport (addAll Account.new txs)).net =
      (addAll Account.new txs).getBalance := by
  rw [printAllTimeReport_eq]
  exact (addAll_balance_inv txs Account.new (by simp [Account.new, sumKind])).symm

/-! ## Reports as reads: lemmas -/

theorem total_addAt (m : CatMap) (k : String) (v : ℚ) :
    CatMap.total (CatMap.addAt m k v) = CatMap.total m + v := by
  induction m with
  | nil => simp [CatMap.addAt, CatMap.total]
  | cons e rest ih =>
    obtain ⟨k1, x⟩ := e
    simp only [CatMap.addAt]
    by_cases h1 : k1 = k
    · simp [CatMap.total, h1]; ring
    · simp only [CatMap.total, if_neg h1, List.map_cons, List.sum_cons] at ih ⊢
      rw [ih]; ring

theorem keys_addAt (m : CatMap) (k : String) (v : ℚ) :
    CatMap.keys (CatMap.addAt m k v) =
      if k ∈ CatMap.keys m then CatMap.keys m else CatMap.keys m ++ [k] := by
  induction m with
  | nil => simp [CatMap.addAt, CatMap.keys]
  | cons e rest ih =>
    obtain ⟨k1, x⟩ := e
    simp only [CatMap.addAt]
    by_cases h1 : k1 = k
    · simp [CatMap.keys, h1]
    · have h2 : ¬ k = k1 := fun h => h1 h.symm
      simp only [CatMap.keys, if_neg h1, List.map_cons, List.mem_cons, h2, false_or] at ih ⊢
      rw [ih]
      split_ifs <;> simp

theorem keys_addAt_nodup (m : CatMap) (k : String) (v : ℚ) (h : (CatMap.keys m).Nodup) :
    (CatMap.keys (CatMap.addAt m k v)).Nodup := by
  rw [keys_addAt]
  split_ifs with hk
  · exact h
  · exact List.Nodup.append h (List.nodup_singleton k) (by simpa using hk)

theorem report_fold_total (k : Kind) (l : List Transaction) (s : Summary) :
    CatMap.total ((l.foldl reportStep s).bucket k) =
      CatMap.total (s.bucket k) + sumKind k l := by
  induction l generalizing s with
  | nil => simp [sumKind]
  | cons t rest ih =>
    rw [List.foldl_cons, ih, reportStep_bucket]
    by_cases hk : t.kind = k
    · rw [if_pos hk, total_addAt]
      simp [sumKind, List.filter_cons, hk, add_assoc]
    · rw [if_neg hk]
      simp [sumKind, List.filter_cons, hk]

theorem report_fold_keys_nodup (k : Kind) (l : List Transaction) (s : Summary)
    (h : (CatMap.keys (s.bucket k)).Nodup) :
    (CatMap.keys ((l.foldl reportStep s).bucket k)).Nodup := by
  induction l generalizing s with
  | nil => exact h
  | cons t rest ih =>
    rw [List.foldl_cons]
    apply ih
    rw [reportStep_bucket]
    split_ifs
    · exact keys_addAt_nodup _ _ _ h
    · exact h

theorem generateMonthlyReport_bucket (acc : Account) (monthYear : String) (k : Kind) :
    (generateMonthlyReport acc monthYear).bucket k =
      ((acc.transactions.filter (fun t => decide (month_key t.date = monthYear))).foldl
        reportStep {}).bucket k := by
  simp only [generateMonthlyReport, getTransactionsForMonth_filter]
  cases k <;> rfl

/-! ## The claims on the reports as reads and on the category totals -/

/-- C17: in the summary of `generateMonthlyReport`, the sum of all values of
`byCategoryIncome` is `totalIncome` and the sum of all values of
`byCategoryExpense` is `totalExpense`; each category is a key of its map once. -/
theorem generateMonthlyReport_category_totals (acc : Account) (monthYear : String) :
    CatMap.total (generateMonthlyReport acc monthYear).byCategoryIncome =
      (generateMonthlyReport acc monthYear).totalIncome ∧
    CatMap.total (generateMonthlyReport acc monthYear).byCategoryExpense =
      (generateMonthlyReport acc monthYear).totalExpense ∧
    (CatMap.keys (generateMonthlyReport acc monthYear).byCategoryIncome).Nodup ∧
    (CatMap.keys (generateMonthlyReport acc monthYear).byCategoryExpense).Nodup := by
  obtain ⟨f1, f2, _⟩ := generateMonthlyReport_fields acc monthYear
  have b1 := generateMonthlyReport_bucket acc monthYear Kind.Income
  have b2 := generateMonthlyReport_bucket acc monthYear Kind.Expense
  have t1 := report_fold_total Kind.Income
    (acc.transactions.filter (fun t => decide (month_key t.date = monthYear))) {}
  have t2 := report_fold_total Kind.Expense
    (acc.transactions.filter (fun t => decide (month_key t.date = monthYear))) {}
  have n1 := report_fold_keys_nodup Kind.Income
    (acc.transactions.filter (fun t => decide (month_key t.date = monthYear))) {}
    List.nodup_nil
  have n2 := report_fold_keys_nodup Kind.Expense
    (acc.transactions.filter (fun t => decide (month_key t.date = monthYear))) {}
    List.nodup_nil
  rw [← b1] at t1 n1
  rw [← b2] at t2 n2
  have z1 : CatMap.total (Summary.bucket {} Kind.Income) = 0 := rfl
  have z2 : CatMap.total (Summary.bucket {} Kind.Expense) = 0 := rfl
  rw [z1, zero_add] at t1
  rw [z2, zero_add] at t2
  exact ⟨t1.trans f1.symm, t2.trans f2.symm, n1, n2⟩

/-! ## Month keys: lemmas -/

theorem month_key_mk (c0 c1 c2 c3 c4 c5 c6 c7 c8 c9 : Char)
    (h : valid_date_format ⟨[c0, c1, c2, c3, c4, c5, c6, c7, c8, c9]⟩ = true) :
    month_key ⟨[c0, c1, c2, c3, c4, c5, c6, c7, c8, c9]⟩ = ⟨[c3, c4, c5, c6, c7, c8, c9]⟩ := by
  rw [month_key_of_valid _ h]
  rfl

theorem monthKeyShape_sentinel : monthKeyShape "00-0000" := by
  refine ⟨rfl, rfl, ?_⟩
  intro i hi
  simp only [List.mem_cons, List.mem_singleton, List.not_mem_nil, or_false] at hi
  rcases hi with rfl | rfl | rfl | rfl | rfl | rfl <;> exact ⟨'0', rfl, by decide, by decide⟩

theorem monthKeyShape_month_key (date : String) : monthKeyShape (month_key date) := by
  cases hv : valid_date_format date with
  | false => rw [month_key_of_invalid date hv]; exact monthKeyShape_sentinel
  | true =>
    have hlen := valid_date_format_length date hv
    obtain ⟨l⟩ := date
    obtain ⟨c0, c1, c2, c3, c4, c5, c6, c7, c8, c9, rfl⟩ := length_eq_ten l hlen
    rw [month_key_mk _ _ _ _ _ _ _ _ _ _ hv]
    rw [valid_date_format_mk] at hv
    simp only [isdigit_iff] at hv
    obtain ⟨_, _, _, h3, h4, h5, h6, h7, h8, h9⟩ := hv
    subst h5
    refine ⟨rfl, rfl, ?_⟩
    intro i hi
    simp only [List.mem_cons, List.mem_singleton, List.not_mem_nil, or_false] at hi
    rcases hi with rfl | rfl | rfl | rfl | rfl | rfl
    · exact ⟨c3, rfl, h3⟩
    · exact ⟨c4, rfl, h4⟩
    · exact ⟨c6, rfl, h6⟩
    · exact ⟨c7, rfl, h7⟩
    · exact ⟨c8, rfl, h8⟩
    · exact ⟨c9, rfl, h9⟩

theorem generateMonthlyReport_of_no_match (acc : Account) (monthYear : String)
    (h : ∀ t ∈ acc.transactions, month_key t.date ≠ monthYear) :
    acc.getTransactionsForMonth monthYear = [] ∧
      generateMonthlyReport acc monthYear =
        { totalIncome := 0, totalExpense := 0, net := 0,
          byCategoryIncome := [], byCategoryExpense := [] } := by
  have he : acc.getTransactionsForMonth monthYear = [] := by
    rw [getTransactionsForMonth_filter, List.filter_eq_nil_iff]
    intro t ht
    simpa using h t ht
  refine ⟨he, ?_⟩
  simp [generateMonthlyReport, he]

/-! ## The claims on the month keys -/

/-- C18: the sentinel month key is not reserved for malformed dates.
`month_key date` is "00-0000" exactly when `valid_date_format date` is false or
the characters of `date` at positions 3 through 9 are "00-0000". The date
"01-00-0000" is accepted by `valid_date_format` and has month key "00-0000", so
a transaction that `addTransaction` accepts is returned by
`getTransactionsForMonth "00-0000"`. -/
theorem month_key_sentinel_iff (date : String) :
    (month_key date = "00-0000" ↔
      (valid_date_format date = false ∨
        (date.data[3]? = some '0' ∧ date.data[4]? = some '0' ∧ date.data[5]? = some '-' ∧
          date.data[6]? = some '0' ∧ date.data[7]? = some '0' ∧ date.data[8]? = some '0' ∧
          date.data[9]? = some '0'))) ∧
    valid_date_format "01-00-0000" = true ∧ month_key "01-00-0000" = "00-0000" ∧
    (Account.new.addTransaction (some (Income 10 "Gift" "01-00-0000"))).ret = true ∧
    (Account.new.addTransaction
      (some (Income 10 "Gift" "01-00-0000"))).acc.getTransactionsForMonth "00-0000" =
        [Income 10 "Gift" "01-00-0000"] := by
  have hv0 : valid_date_format "01-00-0000" = true := by decide
  have hk0 : month_key "01-00-0000" = "00-0000" := by decide
  have ha : (0 : ℚ) < (Income 10 "Gift" "01-00-0000").amount := by norm_num [Income]
  refine ⟨?_, hv0, hk0, ?_, ?_⟩
  · cases hv : valid_date_format date with
    | false => simp [month_key_of_invalid date hv]
    | true =>
      have hlen := valid_date_format_length date hv
      obtain ⟨l⟩ := date
      obtain ⟨c0, c1, c2, c3, c4, c5, c6, c7, c8, c9, rfl⟩ := length_eq_ten l hlen
      rw [month_key_mk _ _ _ _ _ _ _ _ _ _ hv]
      have hs : ("00-0000" : String).data = ['0', '0', '-', '0', '0', '0', '0'] := by decide
      rw [String.ext_iff, hs]
      simp
  · rw [addTransaction_accept Account.new _ ha hv0]
  · rw [addTransaction_accept Account.new _ ha hv0, getTransactionsForMonth_filter]
    simp [Account.new, Income, hk0]

/-- C19: for every string `date`, `month_key date` has exactly 7 characters, with
`'-'` at position 2 and ASCII digits at positions 0, 1, 3, 4, 5, 6. So for every
account and every query string that is not of that shape,
`getTransactionsForMonth` is empty and `generateMonthlyReport` returns
totalIncome 0, totalExpense 0, net 0 and two empty category maps. -/
theorem month_key_shape (date : String) (acc : Account) (monthYear : String) :
    monthKeyShape (month_key date) ∧
    (¬ monthKeyShape monthYear →
      acc.getTransactionsForMonth monthYear = [] ∧
        generateMonthlyReport acc monthYear =
          { totalIncome := 0, totalExpense := 0, net := 0,
            byCategoryIncome := [], byCategoryExpense := [] }) := by
  refine ⟨monthKeyShape_month_key date, fun hn => ?_⟩
  apply generateMonthlyReport_of_no_match
  intro t _ he
  exact hn (he ▸ monthKeyShape_month_key t.date)

/-- The instances of C19 at the scenario for the queries "2024-01", "1-2024" and
the empty string, none of which has the shape of a month key. -/
theorem month_key_shape_witness :
    (¬ monthKeyShape "2024-01" ∧ ¬ monthKeyShape "1-2024" ∧ ¬ monthKeyShape "") ∧
    (scenario.getTransactionsForMonth "2024-01" = [] ∧
      generateMonthlyReport scenario "2024-01" =
        { totalIncome := 0, totalExpense := 0, net := 0,
          byCategoryIncome := [], byCategoryExpense := [] }) ∧
    (scenario.getTransactionsForMonth "1-2024" = [] ∧
      generateMonthlyReport scenario "1-2024" =
        { totalIncome := 0, totalExpense := 0, net := 0,
          byCategoryIncome := [], byCategoryExpense := [] }) ∧
    (scenario.getTransactionsForMonth "" = [] ∧
      generateMonthlyReport scenario "" =
        { totalIncome := 0, totalExpense := 0, net := 0,
          byCategoryIncome := [], byCategoryExpense := [] }) :=
  have n1 : ¬ monthKeyShape "2024-01" := fun h => absurd h.2.1 (by decide)
  have n2 : ¬ monthKeyShape "1-2024" := fun h => absurd h.1 (by decide)
  have n3 : ¬ monthKeyShape "" := fun h => absurd h.1 (by decide)
  ⟨⟨n1, n2, n3⟩, (month_key_shape "" scenario "2024-01").2 n1,
    (month_key_shape "" scenario "1-2024").2 n2, (month_key_shape "" scenario "").2 n3⟩

/-! ## Partition by month: lemmas -/

theorem sum_map_ite_count (ks : List String) (a : String) (c : ℚ) :
    (ks.map (fun k => if a = k then c else 0)).sum = (ks.count a : ℚ) * c := by
  induction ks with
  | nil => simp
  | cons k rest ih =>
    simp only [List.map_cons, List.sum_cons, ih, List.count_cons]
    by_cases h : a = k
    · subst h; simp; ring
    · have h2 : ¬ k = a := fun h3 => h h3.symm
      simp [h, h2]

theorem sum_map_sub_map (ks : List String) (a b : String → ℚ) :
    (ks.map (fun k => a k - b k)).sum = (ks.map a).sum - (ks.map b).sum := by
  induction ks with
  | nil => simp
  | cons k rest ih => simp only [List.map_cons, List.sum_cons, ih]; ring

theorem partition_sum (ks : List String) (hn : ks.Nodup) (f : Transaction → String)
    (g : Transaction → ℚ) (l : List Transaction) (hk : ∀ t ∈ l, f t ∈ ks) :
    (ks.map (fun k => ((l.filter (fun t => decide (f t = k))).map g).sum)).sum =
      (l.map g).sum := by
  induction l with
  | nil => simp
  | cons t rest ih =>
    have hfun : (fun k => (((t :: rest).filter (fun t => decide (f t = k))).map g).sum) =
        (fun k => (if f t = k then g t else 0) +
          ((rest.filter (fun t => decide (f t = k))).map g).sum) := by
      funext k
      by_cases h : f t = k <;> simp [List.filter_cons, h]
    rw [hfun, List.sum_map_add, sum_map_ite_count,
      List.count_eq_one_of_mem hn (hk t (List.mem_cons_self _ _)),
      ih (fun u hu => hk u (List.mem_cons_of_mem _ hu))]
    simp

theorem sumKind_eq_map (k : Kind) (l : List Transaction) :
    sumKind k l = (l.map (fun t => if t.kind = k then t.amount else 0)).sum := by
  induction l with
  | nil => simp [sumKind]
  | cons t rest ih =>
    have hc : sumKind k (t :: rest) = (if t.kind = k then t.amount else 0) + sumKind k rest := by
      by_cases h : t.kind = k <;> simp [sumKind, List.filter_cons, h]
    rw [hc, ih]
    simp

theorem monthKeys_nodup (acc : Account) : (monthKeys acc).Nodup :=
  List.nodup_dedup _

theorem mem_monthKeys (acc : Account) (t : Transaction) (h : t ∈ acc.transactions) :
    month_key t.date ∈ monthKeys acc := by
  unfold monthKeys
  rw [List.mem_dedup]
  exact List.mem_map.mpr ⟨t, h, rfl⟩

theorem sum_monthly_sumKind (acc : Account) (k : Kind) :
    ((monthKeys acc).map (fun m =>
        sumKind k (acc.transactions.filter (fun t => decide (month_key t.date = m))))).sum =
      sumKind k acc.transactions := by
  have h := partition_sum (monthKeys acc) (monthKeys_nodup acc) (fun t => month_key t.date)
    (fun t => if t.kind = k then t.amount else 0) acc.transactions (mem_monthKeys acc)
  rw [sumKind_eq_map k acc.transactions, ← h]
  congr 1
  apply List.map_congr_left
  intro m _
  exact sumKind_eq_map k _

/-! ## The claim on the partition by month -/

/-- C16: the monthly reports partition the all-time report. Summing `totalIncome`
of `generateMonthlyReport acc k` over the distinct month keys `k` of the history
gives the all-time income, summing `totalExpense` gives the all-time expense and
summing `net` gives the all-time net; every transaction of the history is in the
month list of exactly one of these keys. -/
theorem monthly_reports_partition (acc : Account) :
    (monthKeys acc).Nodup ∧
    ((monthKeys acc).map (fun k => (generateMonthlyReport acc k).totalIncome)).sum =
      (printAllTimeReport acc).income ∧
    ((monthKeys acc).map (fun k => (generateMonthlyReport acc k).totalExpense)).sum =
      (printAllTimeReport acc).expense ∧
    ((monthKeys acc).map (fun k => (generateMonthlyReport acc k).net)).sum =
      (printAllTimeReport acc).net ∧
    ∀ t ∈ acc.getTransactions,
      ∃! k, k ∈ monthKeys acc ∧ t ∈ acc.getTransactionsForMonth k := by
  have hI : (fun k => (generateMonthlyReport acc k).totalIncome) = (fun m =>
      sumKind Kind.Income (acc.transactions.filter (fun t => decide (month_key t.date = m)))) :=
    funext fun m => (generateMonthlyReport_fields acc m).1
  have hE : (fun k => (generateMonthlyReport acc k).totalExpense) = (fun m =>
      sumKind Kind.Expense (acc.transactions.filter (fun t => decide (month_key t.date = m)))) :=
    funext fun m => (generateMonthlyReport_fields acc m).2.1
  have hN : (fun k => (generateMonthlyReport acc k).net) = (fun k =>
      (generateMonthlyReport acc k).totalIncome - (generateMonthlyReport acc k).totalExpense) :=
    funext fun m => (generateMonthlyReport_fields acc m).2.2
  have sI := sum_monthly_sumKind acc Kind.Income
  have sE := sum_monthly_sumKind acc Kind.Expense
  rw [← hI] at sI
  rw [← hE] at sE
  refine ⟨monthKeys_nodup acc, ?_, ?_, ?_, ?_⟩
  · rw [sI, printAllTimeReport_eq]
  · rw [sE, printAllTimeReport_eq]
  · rw [hN, sum_map_sub_map, sI, sE, printAllTimeReport_eq]
  · intro t ht
    refine ⟨month_key t.date, ⟨mem_monthKeys acc t ht, ?_⟩, ?_⟩
    · rw [getTransactionsForMonth_filter]
      exact List.mem_filter.mpr ⟨ht, by simp⟩
    · rintro k ⟨_, hk⟩
      rw [getTransactionsForMonth_filter] at hk
      have hkey : month_key t.date = k := by simpa using (List.mem_filter.mp hk).2
      exact hkey.symm

/-- The instance of C16 at the second transaction of the scenario: it is in the
month list of "01-2024", which is one of the month keys of the scenario. -/
theorem monthly_reports_partition_witness :
    Expense 200 "Food" "15-01-2024" ∈ scenario.getTransactions ∧
    "01-2024" ∈ monthKeys scenario ∧
    Expense 200 "Food" "15-01-2024" ∈ scenario.getTransactionsForMonth "01-2024" :=
  have hm : Expense 200 "Food" "15-01-2024" ∈ scenario.getTransactions := by
    rw [scenario_eq]; simp [Account.getTransactions]
  have hk : month_key (Expense 200 "Food" "15-01-2024").date = "01-2024" := by decide
  have h := (monthly_reports_partition scenario).2.2.2.2 _ hm
  have hex : "01-2024" ∈ monthKeys scenario ∧
      Expense 200 "Food" "15-01-2024" ∈ scenario.getTransactionsForMonth "01-2024" := by
    obtain ⟨k, ⟨hk1, hk2⟩, _⟩ := h
    have hkk : month_key (Expense 200 "Food" "15-01-2024").date = k := by
      rw [getTransactionsForMonth_filter] at hk2
      simpa using (List.mem_filter.mp hk2).2
    rw [hk] at hkk
    subst hkk
    exact ⟨hk1, hk2⟩
  ⟨hm, hex⟩

end PFT
